import Mathlib

/-!
# Push supervisor (`push_ndk.cpp`): payload codec, completion handlers, descriptor set

A shallow embedding of `webworks::PushNDK` from
`plugin/com.blackberry.push/src/blackberry10/native/push_ndk.cpp`.

* A `std::string` that carries text is a `List Char`; a `std::string` that carries
  decoded bytes is a `List Nat` of values below 256 (the conversion of an `int`
  to `char` on `+=` is the explicit `% 256`).
* The supervisor's members live in `PushNDK`; calls that leave the class
  (`m_parent->NotifyEvent`, `m_pPushService->...`) are appended to traces kept in
  the same record, so a handler is a function `PushNDK → PushNDK`.
-/

namespace webworks

/-! ## PayloadCodec: `decodeBase64` -/

/-- The alphabet `base64_chars` of `decodeBase64`. -/
def base64_chars : List Char :=
  "ABCDEFGHIJKLMNOPQRSTUVWXYZabcdefghijklmnopqrstuvwxyz0123456789+/".toList

/-- `std::string::find(char)`: position of the first occurrence, `none` for `npos`. -/
def find (hay : List Char) (c : Char) : Option Nat :=
  if hay.indexOf c < hay.length then some (hay.indexOf c) else none

/-- First output byte of a group:
`(current_set[0] << 2) | ((current_set[1] & 0x30) >> 4)`, stored in a `char`. -/
def byte0 (cs : List Nat) : Nat :=
  ((cs.getD 0 0 <<< 2) ||| ((cs.getD 1 0 &&& 0x30) >>> 4)) % 256

/-- Second output byte of a group:
`((current_set[1] & 0xf) << 4) | ((current_set[2] & 0x3c) >> 2)`, stored in a `char`. -/
def byte1 (cs : List Nat) : Nat :=
  (((cs.getD 1 0 &&& 0xf) <<< 4) ||| ((cs.getD 2 0 &&& 0x3c) >>> 2)) % 256

/-- Third output byte of a group:
`((current_set[2] & 0x3) << 6) | current_set[3]`, stored in a `char`. -/
def byte2 (cs : List Nat) : Nat :=
  (((cs.getD 2 0 &&& 0x3) <<< 6) ||| cs.getD 3 0) % 256

/-- State of the `while` loop of `decodeBase64`: the index `i`, the array
`current_set` and the string `decoded_string`. -/
structure DecodeState where
  i : Nat
  current_set : List Nat
  decoded_string : List Nat
  deriving DecidableEq, Repr

/-- The `while` loop of `decodeBase64`. The list argument is the part of
`encodedString` from index `current` on (its length is `remaining`); each
iteration takes one character, and the loop ends when the input is used up
(`remaining--` is zero) or `base64_chars.find` answers `npos`. The index
`current` is an `int` in the source; a string is shorter than `2^31`
characters on the target, so the index does not wrap. -/
def decodeLoop : List Char → DecodeState → DecodeState
  | [], st => st
  | c :: rest, st =>
    match find base64_chars c with
    | none => st
    | some position =>
      let current_set := st.current_set.set st.i (position % 256)
      let i := st.i + 1
      if i = 4 then
        decodeLoop rest
          { i := 0
            current_set := current_set
            decoded_string :=
              st.decoded_string ++ [byte0 current_set, byte1 current_set, byte2 current_set] }
      else
        decodeLoop rest { i := i, current_set := current_set, decoded_string := st.decoded_string }

/-- The part of `decodeBase64` after the loop: a residual group of two or three
characters gives one or two more bytes. -/
def decodeTail (st : DecodeState) : List Nat :=
  if st.i ≠ 0 then
    let d1 := if st.i ≥ 2 then st.decoded_string ++ [byte0 st.current_set] else st.decoded_string
    if st.i ≥ 3 then d1 ++ [byte1 st.current_set] else d1
  else
    st.decoded_string

/-- `PushNDK::decodeBase64`. The array `current_set` is not initialised in the
source; it is read only at indices written before, and starts here as zeros. -/
def decodeBase64 (encodedString : List Char) : List Nat :=
  decodeTail (decodeLoop encodedString { i := 0, current_set := [0, 0, 0, 0], decoded_string := [] })

/-! ### The standard encoding, for the round trip -/

/-- Character of a 6-bit value in the standard alphabet. -/
def sextetChar (v : Nat) : Char := base64_chars.getD v 'A'

/-- The four 6-bit groups of a 24-bit input group, most significant first. -/
def sextetsOfGroup (n : Nat) : List Nat :=
  [n / 262144 % 64, n / 4096 % 64, n / 64 % 64, n % 64]

/-- The standard padded base64 encoding (RFC 4648, section 4) of a byte
sequence, written from the standard and not from the decoder: three bytes
form a 24-bit group that is cut into four 6-bit values; a last group of one
byte is filled with zero bits and gives two characters and `==`, a last group
of two bytes gives three characters and `=`. -/
def encodeBase64 : List Nat → List Char
  | [] => []
  | [a] => ((sextetsOfGroup (a * 65536)).take 2).map sextetChar ++ ['=', '=']
  | [a, b] => ((sextetsOfGroup (a * 65536 + b * 256)).take 3).map sextetChar ++ ['=']
  | a :: b :: c :: rest =>
    (sextetsOfGroup (a * 65536 + b * 256 + c)).map sextetChar ++ encodeBase64 rest

/-! ### Proof-side description of the decoder -/

/-- Positions, in the alphabet, of the leading characters that `find` accepts. -/
def leadingSextets : List Char → List Nat
  | [] => []
  | c :: rest =>
    match find base64_chars c with
    | none => []
    | some position => position :: leadingSextets rest

/-- Bytes of a sequence of 6-bit values, group by group. -/
def decodeGroups : List Nat → List Nat
  | a :: b :: c :: d :: rest =>
    [byte0 [a, b, c, d], byte1 [a, b, c, d], byte2 [a, b, c, d]] ++ decodeGroups rest
  | [a, b, c] => [byte0 [a, b, c, 0], byte1 [a, b, c, 0]]
  | [a, b] => [byte0 [a, b, 0, 0]]
  | [_] => []
  | [] => []

/-- The 6-bit values of the standard encoding of a byte sequence, without the padding. -/
def sextetsOf : List Nat → List Nat
  | [] => []
  | [a] => (sextetsOfGroup (a * 65536)).take 2
  | [a, b] => (sextetsOfGroup (a * 65536 + b * 256)).take 3
  | a :: b :: c :: rest => sextetsOfGroup (a * 65536 + b * 256 + c) ++ sextetsOf rest

/-- The characters the specification names as the alphabet: `A-Z a-z 0-9 + /`. -/
def isBase64Char (c : Char) : Bool :=
  c.isUpper || c.isLower || c.isDigit || c == '+' || c == '/'

/-- Number of bytes a residual group of `k` characters gives. -/
def residualBytes (k : Nat) : Nat :=
  if k = 2 then 1 else if k = 3 then 2 else 0

/-! ## PayloadCodec: `ExtractPushPayload` -/

/-- Modelled from the spec: the JSON value of the JSON writer (`Json::Value` of
`json/writer.h`), which is not among the sources. A default-constructed value
is `null`; `integer` holds a `Json::UInt`; the members of an object are kept
in the order in which their keys were first assigned (the order of keys is
not observable in the properties below). -/
inductive JsonValue where
  | null : JsonValue
  | bool (b : Bool) : JsonValue
  | integer (n : Nat) : JsonValue
  | string (s : String) : JsonValue
  | array (items : List JsonValue) : JsonValue
  | object (members : List (String × JsonValue)) : JsonValue

namespace JsonValue

/-- Assignment to a key of a member list: the value of an existing key is
replaced, a new key is added. -/
def assign : List (String × JsonValue) → String → JsonValue → List (String × JsonValue)
  | [], key, x => [(key, x)]
  | (k, v) :: rest, key, x =>
    if k = key then (k, x) :: rest else (k, v) :: assign rest key x

/-- Value stored under a key of a member list. -/
def lookup : List (String × JsonValue) → String → Option JsonValue
  | [], _ => none
  | (k, v) :: rest, key => if k = key then some v else lookup rest key

/-- Modelled from the spec: `v[key] = x` of the absent `Json::Value`. A `null`
value becomes an object on its first indexing by a key; a value that is
neither `null` nor an object is left as it is (the library asserts). -/
def setMember (v : JsonValue) (key : String) (x : JsonValue) : JsonValue :=
  match v with
  | null => object [(key, x)]
  | object members => object (assign members key x)
  | other => other

/-- Modelled from the spec: the value that `v[key]` refers to in the absent
`Json::Value`: the member when there is one, a fresh `null` otherwise. -/
def member (v : JsonValue) (key : String) : JsonValue :=
  match v with
  | object members => (lookup members key).getD null
  | _ => null

/-- Modelled from the spec: `v.append(x)` of the absent `Json::Value`. A `null`
value becomes an array on its first append. -/
def append (v : JsonValue) (x : JsonValue) : JsonValue :=
  match v with
  | null => array [x]
  | array items => array (items ++ [x])
  | other => other

/-- The value under a key of an object, when the value is an object that has the key. -/
def get? (v : JsonValue) (key : String) : Option JsonValue :=
  match v with
  | object members => lookup members key
  | _ => none

/-- The keys of an object (none for any other value). -/
def keys (v : JsonValue) : List String :=
  match v with
  | object members => members.map Prod.fst
  | _ => []

end JsonValue

/-- Modelled from the spec: what the PNS library's `PushPayload` (absent from the
sources) answers to the accessors that `ExtractPushPayload` calls. `getHeaders`
is the `std::map` in iteration order; `getData` holds `getDataLength()` bytes. -/
structure PushPayload where
  isValid : Bool
  getId : String
  isAckRequired : Bool
  getHeaders : List (String × String)
  getData : List (Fin 256)

/-- The loop over `headers_map` of `ExtractPushPayload`:
`headers[headers_iter->first] = Json::Value(headers_iter->second)`. -/
def extractHeaders (headers_map : List (String × String)) (headers : JsonValue) : JsonValue :=
  headers_map.foldl (fun h kv => h.setMember kv.1 (JsonValue.string kv.2)) headers

/-- The loop over the body of `ExtractPushPayload`:
`current = data[i]; payload_obj["data"].append(Json::Value(current))`. -/
def extractData (data : List (Fin 256)) (payload_obj : JsonValue) : JsonValue :=
  data.foldl
    (fun obj current =>
      obj.setMember "data" ((obj.member "data").append (JsonValue.integer current.val)))
    payload_obj

/-- `PushNDK::ExtractPushPayload`, up to the `Json::Value` handed to the writer.
The constructor of `PushPayload` (the payload parser of the PNS library) is the
parameter `parse`. -/
def ExtractPushPayload (parse : List Nat → PushPayload) (invokeData : List Char) : JsonValue :=
  let decoded_data := decodeBase64 invokeData
  let pushPayload := parse decoded_data
  let payload_obj := JsonValue.null
  if pushPayload.isValid then
    let payload_obj := payload_obj.setMember "valid" (JsonValue.bool true)
    let payload_obj := payload_obj.setMember "id" (JsonValue.string pushPayload.getId)
    let payload_obj :=
      payload_obj.setMember "isAcknowledgeRequired" (JsonValue.bool pushPayload.isAckRequired)
    let headers := extractHeaders pushPayload.getHeaders JsonValue.null
    let payload_obj := payload_obj.setMember "headers" headers
    extractData pushPayload.getData payload_obj
  else
    payload_obj.setMember "valid" (JsonValue.bool false)

/-! ## Supervisor -/

/-- Modelled from the spec: the status codes, the command codes and the pipe
code that `push_ndk.cpp` takes from headers that are not among the sources
(`bb::communications::push` and `PipeData.hpp`). Their values are parameters. -/
structure PushConstants where
  PUSH_NO_ERR : Int
  PUSH_ERR_CONNECTION_CLOSE : Int
  PUSH_ERR_INTERNAL_ERROR : Int
  CreateSession : Int
  CreateChannel : Int
  DestroyChannel : Int
  RegisterToLaunch : Int
  CONNECTION_ESTABLISHED : Int

/-- Modelled from the spec: the reconnection worker `ConnectionTimerThread`
(absent from the sources), seen through `isRunning()` and `start()`: `start`
makes it running, and `started` counts the calls of `start`. -/
structure ConnectionTimerThread where
  isRunning : Bool
  started : Nat
  deriving DecidableEq, Repr

/-- Modelled from the spec: `ConnectionTimerThread::start()`. -/
def ConnectionTimerThread.start (t : ConnectionTimerThread) : ConnectionTimerThread :=
  { isRunning := true, started := t.started + 1 }

/-- A request that `PushNDK` makes to the PNS client `PushService`. -/
inductive PushServiceCall where
  | createSession
  | createChannel (ppgUrl : String)
  | destroyChannel
  | registerToLaunch
  | unregisterFromLaunch
  | acceptPush (payloadId : String)
  | rejectPush (payloadId : String)
  deriving DecidableEq, Repr

/-- The members of `PushNDK` that the operations below read or write. The PNS
client `*m_pPushService` is the list of requests made to it so far, and
`notified` is the list of `m_parent->NotifyEvent(name, payload)` calls so far. -/
structure PushNDK where
  m_pPushService : Option (List PushServiceCall)
  m_pConnTimerThread : Option ConnectionTimerThread
  m_connectionClosePushCommand : Int
  m_hasReceivedConnectionCloseError : Bool
  m_wasCreateSessionCalledByUs : Bool
  m_isMonitorThreadRunning : Bool
  m_fileDescriptor : Int
  m_invokeTargetId : String
  m_appId : String
  m_ppgUrl : String
  notified : List (String × String)
  deriving DecidableEq, Repr

/-- The text `ss << n` gives for an `int` or an enumerator: its decimal digits. -/
def decimal (n : Int) : String := toString n

/-- `m_parent->NotifyEvent(name, payload)`. -/
def NotifyEvent (s : PushNDK) (name payload : String) : PushNDK :=
  { s with notified := s.notified ++ [(name, payload)] }

/-- A request `m_pPushService->...` on a client that exists. -/
def requestPushService (s : PushNDK) (call : PushServiceCall) : PushNDK :=
  { s with m_pPushService := s.m_pPushService.map (fun calls => calls ++ [call]) }

/-- The events delivered to the host between state `s` and the later state `t`. -/
def delivered (s t : PushNDK) : List (String × String) :=
  t.notified.drop s.notified.length

/-- `PushNDK::setConnectionCloseLastPushCommand`. -/
def setConnectionCloseLastPushCommand (K : PushConstants) (s : PushNDK) (code : Int)
    (command : Int) : PushNDK :=
  if code = K.PUSH_ERR_CONNECTION_CLOSE then
    { s with m_connectionClosePushCommand := command, m_hasReceivedConnectionCloseError := true }
  else s

/-- `PushNDK::notifyEventPushServiceConnectionReady`. -/
def notifyEventPushServiceConnectionReady (s : PushNDK) : PushNDK :=
  if s.m_hasReceivedConnectionCloseError then
    NotifyEvent { s with m_hasReceivedConnectionCloseError := false }
      "push.create.pushServiceConnectionReadyCallback" (decimal s.m_connectionClosePushCommand)
  else s

/-- `PushNDK::onConnectionClose`. -/
def onConnectionClose (s : PushNDK) : PushNDK :=
  match s.m_pConnTimerThread with
  | some t => if !t.isRunning then { s with m_pConnTimerThread := some t.start } else s
  | none => s

/-- `PushNDK::onCreateSessionComplete`; `status` is `status.getCode()`. -/
def onCreateSessionComplete (K : PushConstants) (s : PushNDK) (status : Int) : PushNDK :=
  if s.m_wasCreateSessionCalledByUs then
    notifyEventPushServiceConnectionReady { s with m_wasCreateSessionCalledByUs := false }
  else
    let s := setConnectionCloseLastPushCommand K s status K.CreateSession
    let s := if status = K.PUSH_ERR_CONNECTION_CLOSE then onConnectionClose s else s
    NotifyEvent s "push.create.callback" (decimal status)

/-- `PushNDK::onCreateChannelComplete`. -/
def onCreateChannelComplete (K : PushConstants) (s : PushNDK) (status : Int)
    (token : String) : PushNDK :=
  let ss := decimal status ++ " "
  if status = K.PUSH_NO_ERR then
    NotifyEvent s "push.createChannel.callback" (ss ++ token)
  else
    let s := setConnectionCloseLastPushCommand K s status K.CreateChannel
    NotifyEvent s "push.createChannel.callback" ss

/-- `PushNDK::onDestroyChannelComplete`. -/
def onDestroyChannelComplete (K : PushConstants) (s : PushNDK) (status : Int) : PushNDK :=
  let s := setConnectionCloseLastPushCommand K s status K.DestroyChannel
  NotifyEvent s "push.destroyChannel.callback" (decimal status)

/-- `PushNDK::onRegisterToLaunchComplete`. -/
def onRegisterToLaunchComplete (K : PushConstants) (s : PushNDK) (status : Int) : PushNDK :=
  let s := setConnectionCloseLastPushCommand K s status K.RegisterToLaunch
  NotifyEvent s "push.launchApplicationOnPush.callback" (decimal status)

/-- `PushNDK::onUnregisterFromLaunchComplete`. -/
def onUnregisterFromLaunchComplete (K : PushConstants) (s : PushNDK) (status : Int) : PushNDK :=
  let s := setConnectionCloseLastPushCommand K s status K.RegisterToLaunch
  NotifyEvent s "push.launchApplicationOnPush.callback" (decimal status)

/-- `PushNDK::CreateChannel`. -/
def CreateChannel (K : PushConstants) (s : PushNDK) : PushNDK :=
  if s.m_pPushService.isSome then
    requestPushService s (PushServiceCall.createChannel s.m_ppgUrl)
  else
    onCreateChannelComplete K s K.PUSH_ERR_INTERNAL_ERROR ""

/-- `PushNDK::DestroyChannel`. -/
def DestroyChannel (K : PushConstants) (s : PushNDK) : PushNDK :=
  if s.m_pPushService.isSome then
    requestPushService s PushServiceCall.destroyChannel
  else
    onDestroyChannelComplete K s K.PUSH_ERR_INTERNAL_ERROR

/-- `PushNDK::RegisterToLaunch`. -/
def RegisterToLaunch (K : PushConstants) (s : PushNDK) : PushNDK :=
  if s.m_pPushService.isSome then
    requestPushService s PushServiceCall.registerToLaunch
  else
    onRegisterToLaunchComplete K s K.PUSH_ERR_INTERNAL_ERROR

/-- `PushNDK::UnregisterFromLaunch`. -/
def UnregisterFromLaunch (K : PushConstants) (s : PushNDK) : PushNDK :=
  if s.m_pPushService.isSome then
    requestPushService s PushServiceCall.unregisterFromLaunch
  else
    onUnregisterFromLaunchComplete K s K.PUSH_ERR_INTERNAL_ERROR

/-- `PushNDK::Acknowledge`. -/
def Acknowledge (s : PushNDK) (payloadId : String) (shouldAccept : Bool) : PushNDK :=
  if s.m_pPushService.isSome then
    if shouldAccept then
      requestPushService s (PushServiceCall.acceptPush payloadId)
    else
      requestPushService s (PushServiceCall.rejectPush payloadId)
  else s

/-- The dispatch on the byte read from the pipe in `PushNDK::MonitorMessages`:
`CONNECTION_ESTABLISHED` sets `m_wasCreateSessionCalledByUs` and requests
`createSession`; any other byte does nothing. -/
def onPipeMessage (K : PushConstants) (s : PushNDK) (pipe_buf : Int) : PushNDK :=
  if pipe_buf = K.CONNECTION_ESTABLISHED then
    requestPushService { s with m_wasCreateSessionCalledByUs := true } PushServiceCall.createSession
  else s

/-- Number of `start()` calls the reconnect timer of a state has received. -/
def timerStarts (s : PushNDK) : Nat :=
  match s.m_pConnTimerThread with
  | some t => t.started
  | none => 0

/-- An assignment of the constants at which the operations are evaluated in
examples. Only `PUSH_NO_ERR = 0` is taken from the specification. -/
def sampleConstants : PushConstants :=
  { PUSH_NO_ERR := 0
    PUSH_ERR_CONNECTION_CLOSE := 10113
    PUSH_ERR_INTERNAL_ERROR := 500
    CreateSession := 0
    CreateChannel := 1
    DestroyChannel := 2
    RegisterToLaunch := 3
    CONNECTION_ESTABLISHED := 2 }

/-- The state the constructor of `PushNDK` leaves, with `INVALID_PUSH_COMMAND`
and `INVALID_PPS_FILE_DESCRIPTOR` (absent headers) as parameters. -/
def initialPushNDK (INVALID_PUSH_COMMAND INVALID_PPS_FILE_DESCRIPTOR : Int) : PushNDK :=
  { m_pPushService := none
    m_pConnTimerThread := none
    m_connectionClosePushCommand := INVALID_PUSH_COMMAND
    m_hasReceivedConnectionCloseError := false
    m_wasCreateSessionCalledByUs := false
    m_isMonitorThreadRunning := false
    m_fileDescriptor := INVALID_PPS_FILE_DESCRIPTOR
    m_invokeTargetId := ""
    m_appId := ""
    m_ppgUrl := ""
    notified := [] }

/-- A state after `StartService`: client and timer exist, the timer is idle. -/
def startedPushNDK : PushNDK :=
  { initialPushNDK (-1) (-1) with
    m_pPushService := some [PushServiceCall.createSession]
    m_pConnTimerThread := some { isRunning := false, started := 0 }
    m_isMonitorThreadRunning := true
    m_invokeTargetId := "tgt"
    m_appId := "app"
    m_ppgUrl := "url" }

/-! ## MonitorLoop: the descriptor set -/

/-- `PushNDK::fdSet`: `*maxFd` and `*rfds` after the call. `FD_SETSIZE` is the
system's limit, a parameter; `FD_SET(fd, rfds)` puts `fd` in the set. -/
def fdSet (FD_SETSIZE : Int) (fd : Int) (maxFd : Int) (rfds : Finset Int) : Int × Finset Int :=
  if fd > 0 ∧ fd < FD_SETSIZE then
    (if fd > maxFd then fd else maxFd, insert fd rfds)
  else
    (maxFd, rfds)

/-- A sequence of `fdSet` calls on the same `maxFd` and `rfds`, after
`max_fd = 0` and `FD_ZERO`. -/
def fdSetAll (FD_SETSIZE : Int) (fds : List Int) : Int × Finset Int :=
  fds.foldl (fun st fd => fdSet FD_SETSIZE fd st.1 st.2) (0, ∅)

/-- The descriptor set of one iteration of `PushNDK::MonitorMessages`: the PNS
descriptor, then the read end of the pipe. The first component is `max_fd`;
`select` receives `max_fd + 1`. -/
def monitorFdSet (FD_SETSIZE : Int) (m_fileDescriptor pipeReadFd : Int) : Int × Finset Int :=
  let st := fdSet FD_SETSIZE m_fileDescriptor 0 ∅
  fdSet FD_SETSIZE pipeReadFd st.1 st.2

/-! # Theorems -/

/-! ## `decodeBase64` -/

theorem find_lt (c : Char) (p : Nat) (h : find base64_chars c = some p) : p < 64 := by
  unfold find at h
  split at h
  · rename_i hlt
    have hl : base64_chars.length = 64 := by decide
    rw [hl] at hlt
    cases h
    exact hlt
  · cases h

theorem decodeLoop_spec (s : List Char) :
    ∀ (i a b c d : Nat) (out : List Nat), i < 4 →
      decodeTail (decodeLoop s { i := i, current_set := [a, b, c, d], decoded_string := out })
        = out ++ decodeGroups (([a, b, c, d].take i) ++ leadingSextets s) := by
  induction s with
  | nil =>
    intro i a b c d out hi
    interval_cases i <;> simp [decodeLoop, decodeTail, leadingSextets, decodeGroups] <;>
      first | rfl | exact ⟨rfl, rfl⟩
  | cons ch rest ih =>
    intro i a b c d out hi
    cases hf : find base64_chars ch with
    | none =>
      interval_cases i <;>
        simp [decodeLoop, decodeTail, leadingSextets, decodeGroups, hf] <;>
        first | rfl | exact ⟨rfl, rfl⟩
    | some p =>
      have hp : p % 256 = p := Nat.mod_eq_of_lt (by have := find_lt ch p hf; omega)
      interval_cases i
      · simp only [decodeLoop, hf, leadingSextets, hp]
        simpa using ih 1 p b c d out (by omega)
      · simp only [decodeLoop, hf, leadingSextets, hp]
        simpa using ih 2 a p c d out (by omega)
      · simp only [decodeLoop, hf, leadingSextets, hp]
        simpa using ih 3 a b p d out (by omega)
      · simp only [decodeLoop, hf, leadingSextets, hp]
        simpa [decodeGroups] using ih 0 a b c p (out ++ [byte0 [a, b, c, p], byte1 [a, b, c, p],
          byte2 [a, b, c, p]]) (by omega)

theorem decodeBase64_eq (s : List Char) : decodeBase64 s = decodeGroups (leadingSextets s) := by
  unfold decodeBase64
  simpa using decodeLoop_spec s 0 0 0 0 0 [] (by omega)

theorem isBase64Char_of_mem : ∀ c ∈ base64_chars, isBase64Char c = true := by decide

theorem mem_of_isBase64Char (c : Char) (h : isBase64Char c = true) : c ∈ base64_chars := by
  have hc : Char.ofNat c.toNat = c := Char.ofNat_toNat c
  have hr : (65 ≤ c.toNat ∧ c.toNat ≤ 90) ∨ (97 ≤ c.toNat ∧ c.toNat ≤ 122) ∨
      (48 ≤ c.toNat ∧ c.toNat ≤ 57) ∨ c.toNat = 43 ∨ c.toNat = 47 := by
    simp only [isBase64Char, Char.isUpper, Char.isLower, Char.isDigit, Bool.or_eq_true,
      Bool.and_eq_true, decide_eq_true_eq, beq_iff_eq] at h
    rcases h with (((h | h) | h) | h) | h
    · left
      exact ⟨by simpa [Char.toNat, UInt32.le_def] using h.1,
        by simpa [Char.toNat, UInt32.le_def] using h.2⟩
    · right; left
      exact ⟨by simpa [Char.toNat, UInt32.le_def] using h.1,
        by simpa [Char.toNat, UInt32.le_def] using h.2⟩
    · right; right; left
      exact ⟨by simpa [Char.toNat, UInt32.le_def] using h.1,
        by simpa [Char.toNat, UInt32.le_def] using h.2⟩
    · subst h; decide
    · subst h; decide
  generalize c.toNat = n at hc hr
  subst hc
  rcases hr with h | h | h | h | h
  · obtain ⟨h1, h2⟩ := h
    interval_cases n <;> decide
  · obtain ⟨h1, h2⟩ := h
    interval_cases n <;> decide
  · obtain ⟨h1, h2⟩ := h
    interval_cases n <;> decide
  · subst h; decide
  · subst h; decide

theorem find_isSome_of_mem (c : Char) (h : c ∈ base64_chars) :
    ∃ p, find base64_chars c = some p := by
  refine ⟨base64_chars.indexOf c, ?_⟩
  unfold find
  rw [if_pos (List.indexOf_lt_length.mpr h)]

theorem find_none_of_not_mem (c : Char) (h : c ∉ base64_chars) :
    find base64_chars c = none := by
  unfold find
  rw [if_neg (fun hlt => h (List.indexOf_lt_length.mp hlt))]

theorem leadingSextets_stop (rest : List Char)
    (hr : ∀ c, rest.head? = some c → isBase64Char c = false) : leadingSextets rest = [] := by
  cases rest with
  | nil => rfl
  | cons c t =>
    have hc : isBase64Char c = false := hr c rfl
    have hn : c ∉ base64_chars := fun hm => by
      rw [isBase64Char_of_mem c hm] at hc
      cases hc
    simp [leadingSextets, find_none_of_not_mem c hn]

theorem leadingSextets_of_run (p rest : List Char)
    (hp : ∀ c ∈ p, isBase64Char c = true)
    (hr : ∀ c, rest.head? = some c → isBase64Char c = false) :
    leadingSextets (p ++ rest) = leadingSextets p ∧ (leadingSextets p).length = p.length := by
  induction p with
  | nil => simp [leadingSextets_stop rest hr, leadingSextets]
  | cons c t ih =>
    have hc := mem_of_isBase64Char c (hp c (List.mem_cons_self c t))
    obtain ⟨q, hq⟩ := find_isSome_of_mem c hc
    have iht := ih (fun x hx => hp x (List.mem_cons_of_mem c hx))
    simp [leadingSextets, hq, iht.1, iht.2]

theorem decodeGroups_length (l : List Nat) :
    (decodeGroups l).length = 3 * (l.length / 4) + residualBytes (l.length % 4) := by
  induction l using decodeGroups.induct with
  | case1 a b c d rest ih =>
    have h1 : (rest.length + 1 + 1 + 1 + 1) / 4 = rest.length / 4 + 1 := by omega
    have h2 : (rest.length + 1 + 1 + 1 + 1) % 4 = rest.length % 4 := by omega
    simp only [decodeGroups, List.length_append, List.length_cons, List.length_nil, ih, h1, h2]
    omega
  | case2 a b c => simp [decodeGroups, residualBytes]
  | case3 a b => simp [decodeGroups, residualBytes]
  | case4 a => simp [decodeGroups, residualBytes]
  | case5 => simp [decodeGroups, residualBytes]

theorem find_sextetChar : ∀ v < 64, find base64_chars (sextetChar v) = some v := by decide

theorem sextetChar_ne_pad : ∀ v < 64, (sextetChar v != '=') = true := by decide

theorem find_pad : find base64_chars '=' = none := by decide

theorem sextetsOfGroup_lt (n : Nat) : ∀ v ∈ sextetsOfGroup n, v < 64 := by
  intro v hv
  simp only [sextetsOfGroup, List.mem_cons, List.mem_singleton, List.not_mem_nil, or_false] at hv
  omega

theorem sextetsOf_lt (b : List Nat) : ∀ v ∈ sextetsOf b, v < 64 := by
  induction b using sextetsOf.induct with
  | case1 => simp [sextetsOf]
  | case2 a =>
    intro v hv
    exact sextetsOfGroup_lt _ v (List.mem_of_mem_take hv)
  | case3 a b =>
    intro v hv
    exact sextetsOfGroup_lt _ v (List.mem_of_mem_take hv)
  | case4 a b c rest ih =>
    intro v hv
    simp only [sextetsOf, List.mem_append] at hv
    rcases hv with hv | hv
    · exact sextetsOfGroup_lt _ v hv
    · exact ih v hv

theorem encodeBase64_eq (b : List Nat) :
    ∃ k, encodeBase64 b = (sextetsOf b).map sextetChar ++ List.replicate k '=' ∧
      (b.length % 3 = 0 → k = 0) := by
  induction b using sextetsOf.induct with
  | case1 => exact ⟨0, by simp [encodeBase64, sextetsOf], fun _ => rfl⟩
  | case2 a => exact ⟨2, by simp [encodeBase64, sextetsOf, List.replicate], by simp⟩
  | case3 a b => exact ⟨1, by simp [encodeBase64, sextetsOf, List.replicate], by simp⟩
  | case4 a b c rest ih =>
    obtain ⟨k, hk, hk0⟩ := ih
    refine ⟨k, by simp [encodeBase64, sextetsOf, hk], fun h => hk0 ?_⟩
    simp only [List.length_cons] at h
    omega

theorem leadingSextets_map (l : List Nat) (hl : ∀ v ∈ l, v < 64) (k : Nat) :
    leadingSextets (l.map sextetChar ++ List.replicate k '=') = l := by
  induction l with
  | nil =>
    cases k with
    | zero => rfl
    | succ k => simp [List.replicate, leadingSextets, find_pad]
  | cons v t ih =>
    have hv := find_sextetChar v (hl v (List.mem_cons_self v t))
    simp [leadingSextets, hv, ih (fun x hx => hl x (List.mem_cons_of_mem v hx))]

theorem filter_pad (l : List Nat) (hl : ∀ v ∈ l, v < 64) (k : Nat) :
    (l.map sextetChar ++ List.replicate k '=').filter (fun c => c != '=')
      = l.map sextetChar ++ List.replicate 0 '=' := by
  have h1 : (l.map sextetChar).filter (fun c => c != '=') = l.map sextetChar := by
    rw [List.filter_eq_self]
    intro c hc
    obtain ⟨v, hv, rfl⟩ := List.mem_map.mp hc
    exact sextetChar_ne_pad v (hl v hv)
  have h2 : (List.replicate k '=').filter (fun c => c != '=') = [] := by
    rw [List.filter_eq_nil_iff]
    intro c hc
    rw [List.eq_of_mem_replicate hc]
    decide
  simp [List.filter_append, h1, h2]

theorem byte0_val : ∀ a < 64, ∀ b < 64, ∀ c d : Nat, byte0 [a, b, c, d] = a * 4 + b / 16 := by
  intro a ha b hb c d
  have h : ∀ a < 64, ∀ b < 64, ((a <<< 2) ||| ((b &&& 0x30) >>> 4)) % 256 = a * 4 + b / 16 := by
    decide
  exact h a ha b hb

theorem byte1_val : ∀ b < 64, ∀ c < 64, ∀ a d : Nat,
    byte1 [a, b, c, d] = (b % 16) * 16 + c / 4 := by
  intro b hb c hc a d
  have h : ∀ b < 64, ∀ c < 64,
      (((b &&& 0xf) <<< 4) ||| ((c &&& 0x3c) >>> 2)) % 256 = (b % 16) * 16 + c / 4 := by
    decide
  exact h b hb c hc

theorem byte2_val : ∀ c < 64, ∀ d < 64, ∀ a b : Nat,
    byte2 [a, b, c, d] = (c % 4) * 64 + d := by
  intro c hc d hd a b
  have h : ∀ c < 64, ∀ d < 64, (((c &&& 0x3) <<< 6) ||| d) % 256 = (c % 4) * 64 + d := by
    decide
  exact h c hc d hd

theorem decodeGroups_sextetsOf (b : List Nat) (hb : ∀ x ∈ b, x < 256) :
    decodeGroups (sextetsOf b) = b := by
  induction b using sextetsOf.induct with
  | case1 => rfl
  | case2 x =>
    have hx : x < 256 := hb x (by simp)
    simp only [sextetsOf, sextetsOfGroup, List.take, decodeGroups]
    rw [byte0_val _ (by omega) _ (by omega)]
    congr 1
    omega
  | case3 x y =>
    have hx : x < 256 := hb x (by simp)
    have hy : y < 256 := hb y (by simp)
    simp only [sextetsOf, sextetsOfGroup, List.take, decodeGroups]
    rw [byte0_val _ (by omega) _ (by omega), byte1_val _ (by omega) _ (by omega)]
    congr 1
    · omega
    · congr 1
      omega
  | case4 x y z rest ih =>
    have hx : x < 256 := hb x (by simp)
    have hy : y < 256 := hb y (by simp)
    have hz : z < 256 := hb z (by simp)
    have ih2 := ih (fun v hv => hb v (by simp [hv]))
    simp only [sextetsOf, sextetsOfGroup, List.cons_append, List.nil_append, decodeGroups, ih2]
    rw [byte0_val _ (by omega) _ (by omega), byte1_val _ (by omega) _ (by omega),
      byte2_val _ (by omega) _ (by omega)]
    congr 1
    · omega
    · congr 1
      · omega
      · congr 1
        omega

/-- C1: decoding the standard padded base64 encoding of a byte sequence gives the
sequence back; the same holds with the `=` padding removed, so the padding
contributes no output byte, and a sequence whose length is divisible by 3 is
encoded without padding. -/
theorem decodeBase64_encodeBase64 (b : List Nat) (hb : ∀ x ∈ b, x < 256) :
    decodeBase64 (encodeBase64 b) = b ∧
    decodeBase64 ((encodeBase64 b).filter (fun c => c != '=')) = b ∧
    (b.length % 3 = 0 → '=' ∉ encodeBase64 b) := by
  obtain ⟨k, hk, hk0⟩ := encodeBase64_eq b
  have hlt := sextetsOf_lt b
  refine ⟨?_, ?_, ?_⟩
  · rw [decodeBase64_eq, hk, leadingSextets_map _ hlt, decodeGroups_sextetsOf b hb]
  · rw [decodeBase64_eq, hk, filter_pad _ hlt, leadingSextets_map _ hlt,
      decodeGroups_sextetsOf b hb]
  · intro h3 hmem
    rw [hk, hk0 h3] at hmem
    simp only [List.replicate, List.append_nil, List.mem_map] at hmem
    obtain ⟨v, hv, hve⟩ := hmem
    have := sextetChar_ne_pad v (hlt v hv)
    rw [hve] at this
    exact absurd this (by decide)

theorem decodeBase64_encodeBase64_witness :
    decodeBase64 (encodeBase64 [77, 97, 110, 255, 0]) = [77, 97, 110, 255, 0] ∧
    decodeBase64 ((encodeBase64 [77, 97, 110, 255, 0]).filter (fun c => c != '='))
      = [77, 97, 110, 255, 0] ∧
    (([77, 97, 110, 255, 0] : List Nat).length % 3 = 0 → '=' ∉ encodeBase64 [77, 97, 110, 255, 0]) :=
  decodeBase64_encodeBase64 [77, 97, 110, 255, 0] (by decide)

/-- C8: `decodeBase64` is a total function; when the input is `p ++ rest` with `p`
made of alphabet characters only and `rest` empty or starting with a character
outside the alphabet (so `p` is the longest such prefix), the result is that of
`p` alone and has `3 * (n / 4) + r` bytes for `n` the length of `p`, with
`r = 1` when `n % 4 = 2`, `r = 2` when `n % 4 = 3` and `r = 0` otherwise. -/
theorem decodeBase64_leading_run (s p rest : List Char) (hs : s = p ++ rest)
    (hp : ∀ c ∈ p, isBase64Char c = true)
    (hr : ∀ c, rest.head? = some c → isBase64Char c = false) :
    decodeBase64 s = decodeBase64 p ∧
    (decodeBase64 s).length
      = 3 * (p.length / 4) + (if p.length % 4 = 2 then 1 else if p.length % 4 = 3 then 2 else 0) := by
  subst hs
  have h := leadingSextets_of_run p rest hp hr
  refine ⟨?_, ?_⟩
  · rw [decodeBase64_eq, decodeBase64_eq, h.1]
  · rw [decodeBase64_eq, h.1, decodeGroups_length, h.2]
    rfl

theorem decodeBase64_leading_run_witness :
    decodeBase64 "TWFuTQ==x".toList = decodeBase64 "TWFuTQ".toList ∧
    (decodeBase64 "TWFuTQ==x".toList).length
      = 3 * ("TWFuTQ".toList.length / 4)
        + (if "TWFuTQ".toList.length % 4 = 2 then 1
           else if "TWFuTQ".toList.length % 4 = 3 then 2 else 0) :=
  decodeBase64_leading_run "TWFuTQ==x".toList "TWFuTQ".toList "==x".toList rfl (by decide)
    (by intro c hc; cases hc; decide)

/-! ## Supervisor: completion handlers -/

/-- C3: with `m_wasCreateSessionCalledByUs` set, `onCreateSessionComplete(NO_ERR)`
clears that flag and `m_hasReceivedConnectionCloseError` and delivers no
`push.create.callback`; when a close error was pending it delivers exactly the
event `push.create.pushServiceConnectionReadyCallback` with the decimal code of
the recorded command, otherwise nothing; a second suppressed completion that
follows (the monitor sets the flag again on `CONNECTION_ESTABLISHED`) delivers
nothing, whatever its status. -/
theorem recovery_emits_ready_once (K : PushConstants) (s : PushNDK)
    (h : s.m_wasCreateSessionCalledByUs = true) :
    (onCreateSessionComplete K s K.PUSH_NO_ERR).m_wasCreateSessionCalledByUs = false ∧
    (onCreateSessionComplete K s K.PUSH_NO_ERR).m_hasReceivedConnectionCloseError = false ∧
    (∀ e ∈ delivered s (onCreateSessionComplete K s K.PUSH_NO_ERR),
      e.1 ≠ "push.create.callback") ∧
    (s.m_hasReceivedConnectionCloseError = true →
      (onCreateSessionComplete K s K.PUSH_NO_ERR).notified
        = s.notified ++ [("push.create.pushServiceConnectionReadyCallback",
            decimal s.m_connectionClosePushCommand)]) ∧
    (s.m_hasReceivedConnectionCloseError = false →
      (onCreateSessionComplete K s K.PUSH_NO_ERR).notified = s.notified) ∧
    (∀ status : Int,
      (onCreateSessionComplete K
          (onPipeMessage K (onCreateSessionComplete K s K.PUSH_NO_ERR) K.CONNECTION_ESTABLISHED)
          status).notified
        = (onCreateSessionComplete K s K.PUSH_NO_ERR).notified) := by
  cases hp : s.m_hasReceivedConnectionCloseError <;>
    simp [onCreateSessionComplete, notifyEventPushServiceConnectionReady, NotifyEvent,
      onPipeMessage, requestPushService, delivered, h, hp]

theorem recovery_emits_ready_once_witness :
    (onCreateSessionComplete sampleConstants
        { startedPushNDK with
          m_wasCreateSessionCalledByUs := true
          m_hasReceivedConnectionCloseError := true
          m_connectionClosePushCommand := 1 }
        sampleConstants.PUSH_NO_ERR).notified
      = [("push.create.pushServiceConnectionReadyCallback", "1")] :=
  (recovery_emits_ready_once sampleConstants
    { startedPushNDK with
      m_wasCreateSessionCalledByUs := true
      m_hasReceivedConnectionCloseError := true
      m_connectionClosePushCommand := 1 } rfl).2.2.2.1 rfl

/-- C4, as stated, fails: a connection-close status passed to
`onCreateSessionComplete` while `m_wasCreateSessionCalledByUs` is set is not
recorded; the pending flag is false afterwards and the recorded command is not
`CreateSession`. -/
theorem suppressed_close_is_not_recorded :
    (onCreateSessionComplete sampleConstants
        { startedPushNDK with m_wasCreateSessionCalledByUs := true }
        sampleConstants.PUSH_ERR_CONNECTION_CLOSE).m_hasReceivedConnectionCloseError = false ∧
    (onCreateSessionComplete sampleConstants
        { startedPushNDK with m_wasCreateSessionCalledByUs := true }
        sampleConstants.PUSH_ERR_CONNECTION_CLOSE).m_connectionClosePushCommand
      ≠ sampleConstants.CreateSession := by
  decide

/-- C4, amended: a connection-close status is recorded (pending flag set, command
stored) by `onCreateChannelComplete`, `onDestroyChannelComplete`,
`onRegisterToLaunchComplete` and `onUnregisterFromLaunchComplete` in every
state, and by `onCreateSessionComplete` in every state in which
`m_wasCreateSessionCalledByUs` is false. The unregister handler stores
`RegisterToLaunch`. -/
theorem connection_close_is_recorded (K : PushConstants) (s : PushNDK) (token : String)
    (hne : K.PUSH_NO_ERR ≠ K.PUSH_ERR_CONNECTION_CLOSE) :
    (s.m_wasCreateSessionCalledByUs = false →
      (onCreateSessionComplete K s K.PUSH_ERR_CONNECTION_CLOSE).m_hasReceivedConnectionCloseError
          = true ∧
      (onCreateSessionComplete K s K.PUSH_ERR_CONNECTION_CLOSE).m_connectionClosePushCommand
          = K.CreateSession) ∧
    ((onCreateChannelComplete K s K.PUSH_ERR_CONNECTION_CLOSE token).m_hasReceivedConnectionCloseError
        = true ∧
      (onCreateChannelComplete K s K.PUSH_ERR_CONNECTION_CLOSE token).m_connectionClosePushCommand
        = K.CreateChannel) ∧
    ((onDestroyChannelComplete K s K.PUSH_ERR_CONNECTION_CLOSE).m_hasReceivedConnectionCloseError
        = true ∧
      (onDestroyChannelComplete K s K.PUSH_ERR_CONNECTION_CLOSE).m_connectionClosePushCommand
        = K.DestroyChannel) ∧
    ((onRegisterToLaunchComplete K s K.PUSH_ERR_CONNECTION_CLOSE).m_hasReceivedConnectionCloseError
        = true ∧
      (onRegisterToLaunchComplete K s K.PUSH_ERR_CONNECTION_CLOSE).m_connectionClosePushCommand
        = K.RegisterToLaunch) ∧
    ((onUnregisterFromLaunchComplete K s
          K.PUSH_ERR_CONNECTION_CLOSE).m_hasReceivedConnectionCloseError = true ∧
      (onUnregisterFromLaunchComplete K s
          K.PUSH_ERR_CONNECTION_CLOSE).m_connectionClosePushCommand = K.RegisterToLaunch) := by
  have hne2 : ¬ K.PUSH_ERR_CONNECTION_CLOSE = K.PUSH_NO_ERR := fun h => hne h.symm
  refine ⟨?_, ?_, ?_, ?_, ?_⟩
  · intro hf
    cases ht : s.m_pConnTimerThread with
    | none =>
      simp [onCreateSessionComplete, setConnectionCloseLastPushCommand, onConnectionClose,
        NotifyEvent, hf, ht]
    | some tm =>
      cases hr : tm.isRunning <;>
        simp [onCreateSessionComplete, setConnectionCloseLastPushCommand, onConnectionClose,
          NotifyEvent, hf, ht, hr]
  · simp [onCreateChannelComplete, setConnectionCloseLastPushCommand, NotifyEvent, hne2]
  · simp [onDestroyChannelComplete, setConnectionCloseLastPushCommand, NotifyEvent]
  · simp [onRegisterToLaunchComplete, setConnectionCloseLastPushCommand, NotifyEvent]
  · simp [onUnregisterFromLaunchComplete, setConnectionCloseLastPushCommand, NotifyEvent]

theorem connection_close_is_recorded_witness :
    (onCreateChannelComplete sampleConstants startedPushNDK
        sampleConstants.PUSH_ERR_CONNECTION_CLOSE "").m_hasReceivedConnectionCloseError = true ∧
    (onCreateChannelComplete sampleConstants startedPushNDK
        sampleConstants.PUSH_ERR_CONNECTION_CLOSE "").m_connectionClosePushCommand
      = sampleConstants.CreateChannel :=
  (connection_close_is_recorded sampleConstants startedPushNDK "" (by decide)).2.1

/-- C5: each completion handler delivers exactly one host event:
`onCreateSessionComplete` (flag `m_wasCreateSessionCalledByUs` false) delivers
`push.create.callback` with the decimal code; `onCreateChannelComplete` delivers
`push.createChannel.callback` with code, space and token on `PUSH_NO_ERR` and
with code and one space otherwise; `onDestroyChannelComplete` delivers
`push.destroyChannel.callback` with the decimal code; the register and the
unregister handlers deliver `push.launchApplicationOnPush.callback` with the
decimal code and are equal as functions of state and status. -/
theorem completion_event_mapping (K : PushConstants) (s : PushNDK) (status : Int)
    (token : String) :
    (s.m_wasCreateSessionCalledByUs = false →
      (onCreateSessionComplete K s status).notified
        = s.notified ++ [("push.create.callback", decimal status)]) ∧
    (onCreateChannelComplete K s status token).notified
      = s.notified ++ [("push.createChannel.callback",
          if status = K.PUSH_NO_ERR then decimal status ++ " " ++ token
          else decimal status ++ " ")] ∧
    (onDestroyChannelComplete K s status).notified
      = s.notified ++ [("push.destroyChannel.callback", decimal status)] ∧
    (onRegisterToLaunchComplete K s status).notified
      = s.notified ++ [("push.launchApplicationOnPush.callback", decimal status)] ∧
    (onUnregisterFromLaunchComplete K s status).notified
      = s.notified ++ [("push.launchApplicationOnPush.callback", decimal status)] ∧
    onUnregisterFromLaunchComplete K s status = onRegisterToLaunchComplete K s status := by
  refine ⟨?_, ?_, ?_, ?_, ?_, rfl⟩
  · intro hf
    by_cases hc : status = K.PUSH_ERR_CONNECTION_CLOSE
    · cases ht : s.m_pConnTimerThread with
      | none =>
        simp [onCreateSessionComplete, setConnectionCloseLastPushCommand, onConnectionClose,
          NotifyEvent, hf, ht, hc]
      | some tm =>
        cases hr : tm.isRunning <;>
          simp [onCreateSessionComplete, setConnectionCloseLastPushCommand, onConnectionClose,
            NotifyEvent, hf, ht, hr, hc]
    · simp [onCreateSessionComplete, setConnectionCloseLastPushCommand, NotifyEvent, hf, hc]
  · by_cases hn : status = K.PUSH_NO_ERR
    · simp [onCreateChannelComplete, NotifyEvent, hn]
    · by_cases hc : status = K.PUSH_ERR_CONNECTION_CLOSE
      · subst hc
        simp [onCreateChannelComplete, setConnectionCloseLastPushCommand, NotifyEvent, hn]
      · simp [onCreateChannelComplete, setConnectionCloseLastPushCommand, NotifyEvent, hn, hc]
  · by_cases hc : status = K.PUSH_ERR_CONNECTION_CLOSE <;>
      simp [onDestroyChannelComplete, setConnectionCloseLastPushCommand, NotifyEvent, hc]
  · by_cases hc : status = K.PUSH_ERR_CONNECTION_CLOSE <;>
      simp [onRegisterToLaunchComplete, setConnectionCloseLastPushCommand, NotifyEvent, hc]
  · by_cases hc : status = K.PUSH_ERR_CONNECTION_CLOSE <;>
      simp [onUnregisterFromLaunchComplete, setConnectionCloseLastPushCommand, NotifyEvent, hc]

theorem completion_event_mapping_witness :
    (onCreateSessionComplete sampleConstants startedPushNDK 0).notified
      = [("push.create.callback", "0")] ∧
    (onCreateChannelComplete sampleConstants startedPushNDK 0 "abc123").notified
      = [("push.createChannel.callback", "0 abc123")] :=
  ⟨(completion_event_mapping sampleConstants startedPushNDK 0 "abc123").1 rfl,
    (completion_event_mapping sampleConstants startedPushNDK 0 "abc123").2.1⟩

/-! ## Supervisor: public operations without a client -/

/-- C6: when `m_pPushService` is null, `CreateChannel`, `DestroyChannel`,
`RegisterToLaunch` and `UnregisterFromLaunch` change the state only by
delivering one event each (`push.createChannel.callback` with the decimal
internal-error code and one space, `push.destroyChannel.callback` and
`push.launchApplicationOnPush.callback` with the decimal internal-error code),
so the pending flag, the recorded command and the timer stay as they were;
`Acknowledge` changes nothing and delivers nothing for either value of the flag. -/
theorem absent_client_is_synthesized (K : PushConstants) (s : PushNDK) (payloadId : String)
    (shouldAccept : Bool) (hnull : s.m_pPushService = none)
    (hd : K.PUSH_ERR_INTERNAL_ERROR ≠ K.PUSH_ERR_CONNECTION_CLOSE) :
    CreateChannel K s
      = { s with notified := s.notified ++
            [("push.createChannel.callback", decimal K.PUSH_ERR_INTERNAL_ERROR ++ " ")] } ∧
    DestroyChannel K s
      = { s with notified := s.notified ++
            [("push.destroyChannel.callback", decimal K.PUSH_ERR_INTERNAL_ERROR)] } ∧
    RegisterToLaunch K s
      = { s with notified := s.notified ++
            [("push.launchApplicationOnPush.callback", decimal K.PUSH_ERR_INTERNAL_ERROR)] } ∧
    UnregisterFromLaunch K s
      = { s with notified := s.notified ++
            [("push.launchApplicationOnPush.callback", decimal K.PUSH_ERR_INTERNAL_ERROR)] } ∧
    Acknowledge s payloadId shouldAccept = s := by
  refine ⟨?_, ?_, ?_, ?_, ?_⟩
  · by_cases hn : K.PUSH_ERR_INTERNAL_ERROR = K.PUSH_NO_ERR
    · simp [CreateChannel, onCreateChannelComplete, NotifyEvent, hnull, hn]
    · simp [CreateChannel, onCreateChannelComplete, setConnectionCloseLastPushCommand,
        NotifyEvent, hnull, hn, hd]
  · simp [DestroyChannel, onDestroyChannelComplete, setConnectionCloseLastPushCommand,
      NotifyEvent, hnull, hd]
  · simp [RegisterToLaunch, onRegisterToLaunchComplete, setConnectionCloseLastPushCommand,
      NotifyEvent, hnull, hd]
  · simp [UnregisterFromLaunch, onUnregisterFromLaunchComplete,
      setConnectionCloseLastPushCommand, NotifyEvent, hnull, hd]
  · simp [Acknowledge, hnull]

theorem absent_client_is_synthesized_witness :
    CreateChannel sampleConstants (initialPushNDK (-1) (-1))
      = { initialPushNDK (-1) (-1) with
          notified := (initialPushNDK (-1) (-1)).notified ++
            [("push.createChannel.callback", decimal sampleConstants.PUSH_ERR_INTERNAL_ERROR ++ " ")] } :=
  (absent_client_is_synthesized sampleConstants (initialPushNDK (-1) (-1)) "42" true rfl
    (by decide)).1

/-! ## Supervisor: the reconnect timer -/

/-- C7: `onCreateChannelComplete`, `onDestroyChannelComplete`,
`onRegisterToLaunchComplete` and `onUnregisterFromLaunchComplete` leave the
reconnect timer as it was for every status; `onCreateSessionComplete` with
`m_wasCreateSessionCalledByUs` false calls the timer's `start` (once) exactly
when the status is connection-close and the timer exists and is not running,
and leaves the timer as it was otherwise; `onConnectionClose` on a running
timer changes nothing. -/
theorem only_session_close_arms_timer (K : PushConstants) (s : PushNDK) (status : Int)
    (token : String) :
    (onCreateChannelComplete K s status token).m_pConnTimerThread = s.m_pConnTimerThread ∧
    (onDestroyChannelComplete K s status).m_pConnTimerThread = s.m_pConnTimerThread ∧
    (onRegisterToLaunchComplete K s status).m_pConnTimerThread = s.m_pConnTimerThread ∧
    (onUnregisterFromLaunchComplete K s status).m_pConnTimerThread = s.m_pConnTimerThread ∧
    (s.m_wasCreateSessionCalledByUs = false →
      (timerStarts (onCreateSessionComplete K s status) = timerStarts s + 1 ↔
        (status = K.PUSH_ERR_CONNECTION_CLOSE ∧
          ∃ tm, s.m_pConnTimerThread = some tm ∧ tm.isRunning = false)) ∧
      (∀ tm, status = K.PUSH_ERR_CONNECTION_CLOSE → s.m_pConnTimerThread = some tm →
        tm.isRunning = false →
        (onCreateSessionComplete K s status).m_pConnTimerThread = some tm.start) ∧
      (¬ (status = K.PUSH_ERR_CONNECTION_CLOSE ∧
          ∃ tm, s.m_pConnTimerThread = some tm ∧ tm.isRunning = false) →
        (onCreateSessionComplete K s status).m_pConnTimerThread = s.m_pConnTimerThread)) ∧
    (∀ tm, s.m_pConnTimerThread = some tm → tm.isRunning = true → onConnectionClose s = s) := by
  refine ⟨?_, ?_, ?_, ?_, ?_, ?_⟩
  · by_cases hn : status = K.PUSH_NO_ERR
    · simp [onCreateChannelComplete, NotifyEvent, hn]
    · by_cases hc : status = K.PUSH_ERR_CONNECTION_CLOSE
      · subst hc
        simp [onCreateChannelComplete, setConnectionCloseLastPushCommand, NotifyEvent, hn]
      · simp [onCreateChannelComplete, setConnectionCloseLastPushCommand, NotifyEvent, hn, hc]
  · by_cases hc : status = K.PUSH_ERR_CONNECTION_CLOSE <;>
      simp [onDestroyChannelComplete, setConnectionCloseLastPushCommand, NotifyEvent, hc]
  · by_cases hc : status = K.PUSH_ERR_CONNECTION_CLOSE <;>
      simp [onRegisterToLaunchComplete, setConnectionCloseLastPushCommand, NotifyEvent, hc]
  · by_cases hc : status = K.PUSH_ERR_CONNECTION_CLOSE <;>
      simp [onUnregisterFromLaunchComplete, setConnectionCloseLastPushCommand, NotifyEvent, hc]
  · intro hf
    by_cases hc : status = K.PUSH_ERR_CONNECTION_CLOSE
    · cases ht : s.m_pConnTimerThread with
      | none =>
        simp [onCreateSessionComplete, setConnectionCloseLastPushCommand, onConnectionClose,
          NotifyEvent, timerStarts, hf, ht, hc]
      | some tm =>
        cases hr : tm.isRunning <;>
          simp [onCreateSessionComplete, setConnectionCloseLastPushCommand, onConnectionClose,
            NotifyEvent, timerStarts, ConnectionTimerThread.start, hf, ht, hr, hc]
    · simp [onCreateSessionComplete, setConnectionCloseLastPushCommand, NotifyEvent,
        timerStarts, hf, hc]
  · intro tm ht hr
    simp [onConnectionClose, ht, hr]

theorem only_session_close_arms_timer_witness :
    (onCreateSessionComplete sampleConstants startedPushNDK
        sampleConstants.PUSH_ERR_CONNECTION_CLOSE).m_pConnTimerThread
      = some (ConnectionTimerThread.start { isRunning := false, started := 0 }) :=
  (only_session_close_arms_timer sampleConstants startedPushNDK
    sampleConstants.PUSH_ERR_CONNECTION_CLOSE "").2.2.2.2.1 rfl |>.2.1
      { isRunning := false, started := 0 } rfl rfl rfl

/-! ## Supervisor: the suppressed session completion -/

/-- C10: with `m_wasCreateSessionCalledByUs` set, `onCreateSessionComplete` gives
the same state and events for any two statuses; for the connection-close status
it leaves the recorded command and the timer as they were, delivers no
`push.create.callback`, leaves the pending flag false and, when a close error
was pending, delivers `push.create.pushServiceConnectionReadyCallback`. -/
theorem suppressed_completion_ignores_status (K : PushConstants) (s : PushNDK) (a b : Int)
    (h : s.m_wasCreateSessionCalledByUs = true) :
    onCreateSessionComplete K s a = onCreateSessionComplete K s b ∧
    (onCreateSessionComplete K s K.PUSH_ERR_CONNECTION_CLOSE).m_connectionClosePushCommand
      = s.m_connectionClosePushCommand ∧
    (onCreateSessionComplete K s K.PUSH_ERR_CONNECTION_CLOSE).m_pConnTimerThread
      = s.m_pConnTimerThread ∧
    (∀ e ∈ delivered s (onCreateSessionComplete K s K.PUSH_ERR_CONNECTION_CLOSE),
      e.1 ≠ "push.create.callback") ∧
    (onCreateSessionComplete K s K.PUSH_ERR_CONNECTION_CLOSE).m_hasReceivedConnectionCloseError
      = false ∧
    (s.m_hasReceivedConnectionCloseError = true →
      delivered s (onCreateSessionComplete K s K.PUSH_ERR_CONNECTION_CLOSE)
        = [("push.create.pushServiceConnectionReadyCallback",
            decimal s.m_connectionClosePushCommand)]) := by
  cases hp : s.m_hasReceivedConnectionCloseError <;>
    simp [onCreateSessionComplete, notifyEventPushServiceConnectionReady, NotifyEvent,
      delivered, h, hp]

theorem suppressed_completion_ignores_status_witness :
    onCreateSessionComplete sampleConstants
        { startedPushNDK with m_wasCreateSessionCalledByUs := true } 0
      = onCreateSessionComplete sampleConstants
        { startedPushNDK with m_wasCreateSessionCalledByUs := true }
        sampleConstants.PUSH_ERR_CONNECTION_CLOSE :=
  (suppressed_completion_ignores_status sampleConstants
    { startedPushNDK with m_wasCreateSessionCalledByUs := true } 0
    sampleConstants.PUSH_ERR_CONNECTION_CLOSE rfl).1

/-! ## MonitorLoop: `fdSet` -/

theorem fdSetAll_append (N : Int) (l : List Int) (fd : Int) :
    fdSetAll N (l ++ [fd]) = fdSet N fd (fdSetAll N l).1 (fdSetAll N l).2 := by
  simp [fdSetAll, List.foldl_append]

theorem fdSetAll_invariant (N : Int) (fds : List Int) :
    (∀ m, m ∈ (fdSetAll N fds).2 ↔ m ∈ fds ∧ 0 < m ∧ m < N) ∧
    (∀ m ∈ (fdSetAll N fds).2, m ≤ (fdSetAll N fds).1) ∧
    ((fdSetAll N fds).2.Nonempty → (fdSetAll N fds).1 ∈ (fdSetAll N fds).2) ∧
    ((fdSetAll N fds).2 = ∅ → (fdSetAll N fds).1 = 0) := by
  induction fds using List.reverseRecOn with
  | nil => simp [fdSetAll]
  | append_singleton l fd ih =>
    obtain ⟨hmem, hle, hne, hem⟩ := ih
    rw [fdSetAll_append]
    by_cases hin : fd > 0 ∧ fd < N
    · simp only [fdSet, hin, and_self, if_true]
      refine ⟨?_, ?_, ?_, ?_⟩
      · intro m
        simp only [Finset.mem_insert, hmem, List.mem_append, List.mem_singleton]
        constructor
        · rintro (h | h)
          · subst h
            exact ⟨Or.inr rfl, hin.1, hin.2⟩
          · exact ⟨Or.inl h.1, h.2⟩
        · rintro ⟨h | h, h2⟩
          · exact Or.inr ⟨h, h2⟩
          · exact Or.inl h
      · intro m hm
        rcases Finset.mem_insert.mp hm with h | h
        · subst h
          split <;> omega
        · have := hle m h
          split <;> omega
      · intro _
        by_cases hgt : fd > (fdSetAll N l).1
        · simp [hgt]
        · simp only [hgt, if_false, Finset.mem_insert]
          by_cases hempty : (fdSetAll N l).2 = ∅
          · have h0 := hem hempty
            left
            omega
          · right
            exact hne (Finset.nonempty_iff_ne_empty.mpr hempty)
      · intro h
        exact absurd h (Finset.insert_ne_empty _ _)
    · simp only [fdSet, hin, if_false]
      refine ⟨?_, hle, hne, hem⟩
      intro m
      simp only [hmem, List.mem_append, List.mem_singleton]
      constructor
      · rintro ⟨h1, h2⟩
        exact ⟨Or.inl h1, h2⟩
      · rintro ⟨h | h, h2⟩
        · exact ⟨h, h2⟩
        · subst h
          exact absurd ⟨h2.1, h2.2⟩ hin

/-- C9: after `max_fd = 0`, `FD_ZERO` and any sequence of `fdSet` calls, the set
holds exactly the descriptors of the sequence with `0 < fd < FD_SETSIZE`;
`maxFd` is the largest member (it bounds every member and is one of them) and
is 0 when the set is empty; every member `m` has `0 < m ≤ maxFd < FD_SETSIZE`;
`maxFd` is below a positive `FD_SETSIZE` also when the set is empty; a call with
`fd ≤ 0` or `fd ≥ FD_SETSIZE` changes neither the set nor `maxFd`; the set of a
monitor iteration is the one of the two calls for the PNS descriptor and the
pipe. -/
theorem fdSet_hygiene (N : Int) (fds : List Int) :
    (∀ m, m ∈ (fdSetAll N fds).2 ↔ m ∈ fds ∧ 0 < m ∧ m < N) ∧
    (∀ m ∈ (fdSetAll N fds).2, m ≤ (fdSetAll N fds).1) ∧
    ((fdSetAll N fds).2.Nonempty → (fdSetAll N fds).1 ∈ (fdSetAll N fds).2) ∧
    ((fdSetAll N fds).2 = ∅ → (fdSetAll N fds).1 = 0) ∧
    (∀ m ∈ (fdSetAll N fds).2, 0 < m ∧ m ≤ (fdSetAll N fds).1 ∧ (fdSetAll N fds).1 < N) ∧
    (0 < N → (fdSetAll N fds).1 < N) ∧
    (∀ (fd maxFd : Int) (rfds : Finset Int), fd ≤ 0 ∨ fd ≥ N →
      fdSet N fd maxFd rfds = (maxFd, rfds)) ∧
    (∀ pnsFd pipeFd : Int, monitorFdSet N pnsFd pipeFd = fdSetAll N [pnsFd, pipeFd]) := by
  obtain ⟨hmem, hle, hne, hem⟩ := fdSetAll_invariant N fds
  have hmax : (fdSetAll N fds).2.Nonempty → (fdSetAll N fds).1 < N := fun h =>
    ((hmem _).mp (hne h)).2.2
  refine ⟨hmem, hle, hne, hem, ?_, ?_, ?_, ?_⟩
  · intro m hm
    exact ⟨((hmem m).mp hm).2.1, hle m hm, hmax ⟨m, hm⟩⟩
  · intro hN
    by_cases hempty : (fdSetAll N fds).2 = ∅
    · rw [hem hempty]
      exact hN
    · exact hmax (Finset.nonempty_iff_ne_empty.mpr hempty)
  · intro fd maxFd rfds h
    have hin : ¬ (fd > 0 ∧ fd < N) := by omega
    simp [fdSet, hin]
  · intro pnsFd pipeFd
    rfl

theorem fdSet_hygiene_witness :
    (fdSetAll 1024 [5, -1, 2000, 3]).1 < 1024 ∧
    fdSet 1024 2000 5 {5} = (5, {5}) :=
  ⟨(fdSet_hygiene 1024 [5, -1, 2000, 3]).2.2.2.2.2.1 (by decide),
    (fdSet_hygiene 1024 [5, -1, 2000, 3]).2.2.2.2.2.2.1 2000 5 {5} (by decide)⟩

/-! ## PayloadCodec: `ExtractPushPayload` -/

theorem assign_new (ms : List (String × JsonValue)) (key : String) (x : JsonValue)
    (h : key ∉ ms.map Prod.fst) : JsonValue.assign ms key x = ms ++ [(key, x)] := by
  induction ms with
  | nil => rfl
  | cons kv rest ih =>
    obtain ⟨k, v⟩ := kv
    simp only [List.map_cons, List.mem_cons, not_or] at h
    have hk : ¬ k = key := fun e => h.1 e.symm
    simp [JsonValue.assign, hk, ih h.2]

theorem assign_last (ms : List (String × JsonValue)) (key : String) (v x : JsonValue)
    (h : key ∉ ms.map Prod.fst) :
    JsonValue.assign (ms ++ [(key, v)]) key x = ms ++ [(key, x)] := by
  induction ms with
  | nil => simp [JsonValue.assign]
  | cons kv rest ih =>
    obtain ⟨k, w⟩ := kv
    simp only [List.map_cons, List.mem_cons, not_or] at h
    have hk : ¬ k = key := fun e => h.1 e.symm
    simp [JsonValue.assign, hk, ih h.2]

theorem lookup_new (ms : List (String × JsonValue)) (key : String)
    (h : key ∉ ms.map Prod.fst) : JsonValue.lookup ms key = none := by
  induction ms with
  | nil => rfl
  | cons kv rest ih =>
    obtain ⟨k, v⟩ := kv
    simp only [List.map_cons, List.mem_cons, not_or] at h
    have hk : ¬ k = key := fun e => h.1 e.symm
    simp [JsonValue.lookup, hk, ih h.2]

theorem lookup_last (ms : List (String × JsonValue)) (key : String) (v : JsonValue)
    (h : key ∉ ms.map Prod.fst) : JsonValue.lookup (ms ++ [(key, v)]) key = some v := by
  induction ms with
  | nil => simp [JsonValue.lookup]
  | cons kv rest ih =>
    obtain ⟨k, w⟩ := kv
    simp only [List.map_cons, List.mem_cons, not_or] at h
    have hk : ¬ k = key := fun e => h.1 e.symm
    simp [JsonValue.lookup, hk, ih h.2]

theorem extractHeaders_object (hs : List (String × String)) :
    ∀ ms : List (String × JsonValue), (ms.map Prod.fst ++ hs.map Prod.fst).Nodup →
      extractHeaders hs (JsonValue.object ms)
        = JsonValue.object (ms ++ hs.map (fun kv => (kv.1, JsonValue.string kv.2))) := by
  induction hs with
  | nil => intro ms _; simp [extractHeaders]
  | cons kv rest ih =>
    intro ms hnd
    have hk : kv.1 ∉ ms.map Prod.fst := by
      intro hm
      have := (List.nodup_append.mp hnd).2.2
      exact this hm (by simp)
    have hnd2 : ((ms ++ [(kv.1, JsonValue.string kv.2)]).map Prod.fst ++ rest.map Prod.fst).Nodup := by
      simpa [List.append_assoc] using hnd
    have := ih (ms ++ [(kv.1, JsonValue.string kv.2)]) hnd2
    simp only [extractHeaders, List.foldl_cons, JsonValue.setMember, assign_new ms _ _ hk] at this ⊢
    simpa [List.append_assoc] using this

theorem extractHeaders_null (hs : List (String × String)) (hnd : (hs.map Prod.fst).Nodup) :
    extractHeaders hs JsonValue.null
      = if hs = [] then JsonValue.null
        else JsonValue.object (hs.map (fun kv => (kv.1, JsonValue.string kv.2))) := by
  cases hs with
  | nil => rfl
  | cons kv rest =>
    have h := extractHeaders_object rest [(kv.1, JsonValue.string kv.2)] (by simpa using hnd)
    simp only [extractHeaders, List.foldl_cons, JsonValue.setMember] at h ⊢
    simpa using h

theorem extractData_array (data : List (Fin 256)) :
    ∀ (ms : List (String × JsonValue)) (xs : List JsonValue), "data" ∉ ms.map Prod.fst →
      extractData data (JsonValue.object (ms ++ [("data", JsonValue.array xs)]))
        = JsonValue.object
            (ms ++ [("data", JsonValue.array (xs ++ data.map (fun d => JsonValue.integer d.val)))]) := by
  induction data with
  | nil => intro ms xs _; simp [extractData]
  | cons d rest ih =>
    intro ms xs hk
    have := ih ms (xs ++ [JsonValue.integer d.val]) hk
    simp only [extractData, List.foldl_cons, JsonValue.setMember, JsonValue.member,
      lookup_last ms _ _ hk, assign_last ms _ _ _ hk, Option.getD_some, JsonValue.append] at this ⊢
    simpa [List.append_assoc] using this

theorem extractData_object (data : List (Fin 256)) (ms : List (String × JsonValue))
    (hk : "data" ∉ ms.map Prod.fst) :
    extractData data (JsonValue.object ms)
      = JsonValue.object (ms ++
          if data = [] then []
          else [("data", JsonValue.array (data.map (fun d => JsonValue.integer d.val)))]) := by
  cases data with
  | nil => simp [extractData]
  | cons d rest =>
    have := extractData_array rest ms [JsonValue.integer d.val] hk
    simp only [extractData, List.foldl_cons, JsonValue.setMember, JsonValue.member,
      lookup_new ms _ hk, assign_new ms _ _ hk, Option.getD_none, JsonValue.append] at this ⊢
    simpa using this

/-- What `ExtractPushPayload` builds, for every input and parser: the object with
the single member `valid = false` when the parser says invalid; otherwise the
members `valid`, `id`, `isAcknowledgeRequired`, `headers` and, only when the
body is not empty, `data` (one integer per byte, in order); `headers` is the
object of the header pairs when there is a header and `null` when there is none. -/
theorem ExtractPushPayload_shape (parse : List Nat → PushPayload) (invokeData : List Char) :
    ((parse (decodeBase64 invokeData)).isValid = false →
      ExtractPushPayload parse invokeData = JsonValue.object [("valid", JsonValue.bool false)]) ∧
    ((parse (decodeBase64 invokeData)).isValid = true →
      ((parse (decodeBase64 invokeData)).getHeaders.map Prod.fst).Nodup →
      ExtractPushPayload parse invokeData
        = JsonValue.object
            ([("valid", JsonValue.bool true),
              ("id", JsonValue.string (parse (decodeBase64 invokeData)).getId),
              ("isAcknowledgeRequired",
                JsonValue.bool (parse (decodeBase64 invokeData)).isAckRequired),
              ("headers",
                if (parse (decodeBase64 invokeData)).getHeaders = [] then JsonValue.null
                else JsonValue.object ((parse (decodeBase64 invokeData)).getHeaders.map
                  (fun kv => (kv.1, JsonValue.string kv.2))))] ++
             if (parse (decodeBase64 invokeData)).getData = [] then []
             else [("data", JsonValue.array ((parse (decodeBase64 invokeData)).getData.map
                (fun d => JsonValue.integer d.val)))])) := by
  simp only [ExtractPushPayload]
  generalize parse (decodeBase64 invokeData) = p
  constructor
  · intro hv
    simp [hv, JsonValue.setMember]
  · intro hv hnd
    have hset : ∀ h : JsonValue,
        (((JsonValue.null.setMember "valid" (JsonValue.bool true)).setMember "id"
            (JsonValue.string p.getId)).setMember "isAcknowledgeRequired"
            (JsonValue.bool p.isAckRequired)).setMember "headers" h
          = JsonValue.object [("valid", JsonValue.bool true), ("id", JsonValue.string p.getId),
              ("isAcknowledgeRequired", JsonValue.bool p.isAckRequired), ("headers", h)] := by
      intro h
      simp [JsonValue.setMember, JsonValue.assign]
    simp only [hv, if_true, hset, extractHeaders_null _ hnd]
    rw [extractData_object _ _ (by simp)]

/-- C2 at a valid payload without headers and with an empty body: the object has
no member `data`, and its member `headers` is `null`, not an object. -/
theorem ExtractPushPayload_no_headers_empty_body :
    ExtractPushPayload
        (fun _ => { isValid := true, getId := "42", isAckRequired := true,
                    getHeaders := [], getData := [] }) []
      = JsonValue.object [("valid", JsonValue.bool true), ("id", JsonValue.string "42"),
          ("isAcknowledgeRequired", JsonValue.bool true), ("headers", JsonValue.null)] ∧
    (ExtractPushPayload
        (fun _ => { isValid := true, getId := "42", isAckRequired := true,
                    getHeaders := [], getData := [] }) []).get? "data" = none ∧
    (ExtractPushPayload
        (fun _ => { isValid := true, getId := "42", isAckRequired := true,
                    getHeaders := [], getData := [] }) []).get? "headers"
      = some JsonValue.null :=
  ⟨rfl, rfl, rfl⟩

end webworks
